import Mathlib

/-!
Verification of the Test Attempt lifecycle engine of the examfit backend
(`src/controllers/student.controller.js`, routed in `src/routes/students.routes.js`).

The controller functions `createTest`, `saveAnswer`, `submitTest`,
`getTestResult` and `deleteTest` are shallowly embedded here.  The MongoDB
TestAttempt document is the structure `Attempt`; the question bank is a list of
`BankQuestion`; every store mutation in the source is a single atomic
`findOneAndUpdate` / `create` / `deleteOne`, which we model as one atomic step
on an `Option Attempt` store.  Mongoose increments the `__v` version key only
on `Document.save()`, which this controller never calls after creation, so the
`version` field is carried in the state and compared by the submit
compare-and-swap but never incremented — exactly as in the running code.

Scores are modelled in `ℚ`; `Math.round` is `fun x => Int.floor (x + 1/2)`,
which agrees with JavaScript on all non-negative arguments produced here.
-/

namespace Examfit

/-- A caller identity: `req.user` is either absent (anonymous) or an
authenticated user id. -/
inductive Caller
  | anon
  | user (uid : Nat)
deriving Repr, DecidableEq

/-- A document of the `questions` collection (model `Question.js`): the fields
used by the student controller.  `correctIndex` is required by the schema and
`status` is the enum draft/published. -/
structure BankQuestion where
  id : Nat
  text : String
  options : List String
  correctIndex : Int
  explanation : String
  status : String
  createdBy : Nat
deriving Repr, DecidableEq

/-- A question document as placed in a `createTest` response and in the
attempt's `questions[].question` snapshot.  Optional fields model MongoDB
projections: a field excluded by `.select(...)` is `none`. -/
structure TestQuestionDoc where
  id : Nat
  text : String
  options : List String
  correctIndex : Option Int
  explanation : Option String
  questionNumber : Nat
deriving Repr, DecidableEq

/-- One entry of `TestAttempt.questions`: the snapshot, the stored answer
(`null` = `none`) and the flag. -/
structure AttemptQuestion where
  questionId : Nat
  question : TestQuestionDoc
  answer : Option Int
  flagged : Bool
deriving Repr, DecidableEq

/-- One entry of the `results` array built by `submitTest`. -/
structure ResultEntry where
  questionId : Nat
  question : TestQuestionDoc
  userAnswer : Option Int
  correctAnswer : Option Int
  isCorrect : Bool
  explanation : String
  flagged : Bool
deriving Repr, DecidableEq

/-- The TestAttempt document.  `score`, `correct`, `total`, `results`,
`submittedAt` are `none` until submission.  `version` is Mongoose's `__v`. -/
structure Attempt where
  testId : Nat
  userId : Option Nat
  sessionId : Option Nat
  questions : List AttemptQuestion
  submitted : Bool
  score : Option ℚ
  correct : Option Nat
  total : Option Nat
  results : Option (List ResultEntry)
  submittedAt : Option Nat
  version : Nat
deriving Repr, DecidableEq

/-- The ownership check repeated in `saveAnswer` / `submitTest` / `deleteTest`:
an authenticated caller must match `test.userId`
(`!test.userId || test.userId.toString() !== req.user._id.toString()` rejects),
an anonymous caller is rejected iff `test.userId` is set. -/
def authOk (caller : Caller) (testUserId : Option Nat) : Bool :=
  match caller with
  | .user uid =>
      match testUserId with
      | some ouid => ouid = uid
      | none => false
  | .anon => testUserId.isNone

/-! ### Scoring (submitTest lines 333–366)

`submitTest` fetches `Question.find({_id: {$in: questionIds}})` — with no
`status` filter — selecting `_id correctIndex explanation`, builds a map from
id to document, and grades each attempt entry. -/

/-- The `questionMap.get(q.questionId.toString())` lookup.  The fetch that
fills the map has no `status: published` condition, so draft questions are
found too; a question deleted from the bank yields `none`. -/
def lookupQuestion (bank : List BankQuestion) (qid : Nat) : Option BankQuestion :=
  bank.find? (fun b => b.id = qid)

/-- Grading of one attempt entry (the body of the `results` map):
`userAnswer` is the stored answer (`null`/`undefined` → `none`),
`correctAnswer` is `Number(question.correctIndex)` or `null` when the question
is missing, and
`isCorrect = userAnswer !== null && correctAnswer !== null && userAnswer === correctAnswer`. -/
def gradeQuestion (bank : List BankQuestion) (q : AttemptQuestion) : ResultEntry :=
  let question := lookupQuestion bank q.questionId
  let userAnswer := q.answer
  let correctAnswer := question.map (fun qq => qq.correctIndex)
  let isCorrect :=
    match userAnswer, correctAnswer with
    | some u, some c => u = c
    | _, _ => false
  { questionId := q.questionId
    question := q.question
    userAnswer := userAnswer
    correctAnswer := correctAnswer
    isCorrect := isCorrect
    explanation := match question with | some qq => qq.explanation | none => ""
    flagged := q.flagged }

/-- The `results` array of `submitTest`. -/
def submitResults (bank : List BankQuestion) (qs : List AttemptQuestion) : List ResultEntry :=
  qs.map (gradeQuestion bank)

/-- The `correct` counter incremented once per `isCorrect` entry. -/
def countCorrect (rs : List ResultEntry) : Nat :=
  (rs.filter (fun r => r.isCorrect)).length

/-- JavaScript `Math.round` on the rationals produced here:
round half toward positive infinity. -/
def jsRound (x : ℚ) : Int := Rat.floor (x + 1 / 2)

/-- `score = (correct / test.questions.length) * 100` (line 366). -/
def rawScore (correctN totalN : Nat) : ℚ := ((correctN : ℚ) / (totalN : ℚ)) * 100

/-- The persisted score: `Math.round(score * 100) / 100` (line 380). -/
def roundScore (s : ℚ) : ℚ := ((jsRound (s * 100) : ℚ)) / 100

/-- The full output of one scoring computation of `submitTest`. -/
structure Scored where
  score : ℚ
  correct : Nat
  total : Nat
  results : List ResultEntry
deriving Repr, DecidableEq

/-- Steps 3–5 of the submission algorithm: grade every stored question against
the authoritative bank, count, and round the percentage. -/
def computeScored (bank : List BankQuestion) (qs : List AttemptQuestion) : Scored :=
  let results := submitResults bank qs
  let correct := countCorrect results
  { score := roundScore (rawScore correct qs.length)
    correct := correct
    total := qs.length
    results := results }

/-- `Rat.floor` is the `Int.floor` of the `FloorRing ℚ` instance (both are
`num / den` of the normalised form). -/
theorem jsRound_eq_floor (x : ℚ) : jsRound x = Int.floor (x + 1 / 2) := by
  rw [jsRound, Rat.floor_def', Rat.floor_def]

/-! ### createTest (student.controller.js lines 97–215)

We embed the question-selection and response-building part of `createTest`.
The exam/paper metadata resolution of lines 60–95 only fills the `exam` /
`subject` / `questionPaper` response metadata (and produces its own 404s); it
does not touch the question documents, so it is elided here.  The bank list is
ordered by `createdAt` (the fetch sorts `{createdAt: 1}` and a Mongo filter
preserves that order), and the paper-position question numbering of lines
140–163 falls back to array index + 1, which is what we model. -/

/-- The projection of a bank question placed in the `createTest` response and
in the attempt snapshot: the fetch at line 124 selects `-createdBy`, so every
other schema field — including `correctIndex` and `explanation` — is kept. -/
def toTestQuestionDoc (n : Nat) (b : BankQuestion) : TestQuestionDoc :=
  { id := b.id
    text := b.text
    options := b.options
    correctIndex := some b.correctIndex
    explanation := some b.explanation
    questionNumber := n }

/-- A successful `createTest`: the 201 response payload (its `questions`
array) and the persisted `TestAttempt.create` document. -/
structure CreateOk where
  testId : Nat
  questions : List TestQuestionDoc
  attempt : Attempt
deriving Repr, DecidableEq

/-- `createTest` outcomes: 201, or the 400 `No questions available` error. -/
inductive CreateResp
  | created (r : CreateOk)
  | noQuestions
deriving Repr, DecidableEq

/-- `createTest`: resolve the id pool (explicit list, else all published ids
matching the selector), re-fetch the documents with the `status: published`
filter, number them, and persist an InProgress attempt whose `questions`
array snapshots the fetched documents with `answer: null, flagged: false`.
The caller decides the ownership regime: a logged-in user binds `userId`, an
anonymous caller gets a fresh `sessionId` and no `userId`. -/
def createTest (caller : Caller) (qsel : Option (List Nat)) (bank : List BankQuestion) :
    CreateResp :=
  let publishedIds := (bank.filter (fun b => b.status = "published")).map (fun b => b.id)
  let questionIds :=
    match qsel with
    | some l => if l.isEmpty then publishedIds else l
    | none => publishedIds
  if questionIds.isEmpty then .noQuestions
  else
    let testQuestions :=
      bank.filter (fun b => decide (b.id ∈ questionIds) && decide (b.status = "published"))
    if testQuestions.isEmpty then .noQuestions
    else
      let docs := testQuestions.enum.map (fun p => toTestQuestionDoc (p.1 + 1) p.2)
      let userId : Option Nat := match caller with | .user uid => some uid | .anon => none
      let sessionId : Option Nat := match caller with | .user _ => none | .anon => some 0
      .created
        { testId := 0
          questions := docs
          attempt :=
            { testId := 0
              userId := userId
              sessionId := sessionId
              questions := docs.map (fun d =>
                { questionId := d.id, question := d, answer := none, flagged := false })
              submitted := false
              score := none
              correct := none
              total := none
              results := none
              submittedAt := none
              version := 0 } }

/-! ### saveAnswer (student.controller.js lines 217–288)

The write is one atomic `findOneAndUpdate` whose filter is
`{testId, userId: req.user._id, submitted: false}` for an authenticated
caller and `{testId, userId: null, sessionId: {$exists: true},
submitted: false}` for an anonymous one, with
`$set {questions.$[elem].answer / .flagged}` under
`arrayFilters [{elem.questionId: questionId}]`.  When the filter matches
nothing, a diagnostic read distinguishes 404 / 403 / 400 / 409. -/

/-- The atomic-update filter of `saveAnswer`. -/
def saveMatch (caller : Caller) (a : Attempt) : Bool :=
  (match caller with
   | .user uid => a.userId = some uid
   | .anon => a.userId = none && a.sessionId.isSome) && a.submitted = false

/-- Effect of the `$set` + `arrayFilters` update on one `questions` entry:
entries whose `questionId` matches get the new answer and/or flag, all other
entries are untouched.  The outer `Option` on `ans` and `flg` models a field
absent from the request body (`!== undefined` guards). -/
def applySaveEntry (qid : Nat) (ans : Option (Option Int)) (flg : Option Bool)
    (e : AttemptQuestion) : AttemptQuestion :=
  if e.questionId = qid then
    { e with answer := ans.getD e.answer, flagged := flg.getD e.flagged }
  else e

/-- The whole-document effect of the atomic partial update: only the
`questions` array entries matching `questionId` change. -/
def applySave (qid : Nat) (ans : Option (Option Int)) (flg : Option Bool)
    (a : Attempt) : Attempt :=
  { a with questions := a.questions.map (applySaveEntry qid ans flg) }

/-- `saveAnswer` responses: 200, 404, 403, the 400 `Test already submitted`
rejection, and the 409 update-conflict fallback. -/
inductive SaveResp
  | saved
  | notFound
  | notAuthorized
  | alreadySubmitted
  | updateConflict
deriving Repr, DecidableEq

/-- `saveAnswer` as one atomic conditional store operation followed, on
filter miss, by the diagnostic read of lines 249–274. -/
def saveAnswer (caller : Caller) (qid : Nat) (ans : Option (Option Int)) (flg : Option Bool)
    (st : Option Attempt) : SaveResp × Option Attempt :=
  match st with
  | none => (.notFound, none)
  | some a =>
    if saveMatch caller a then
      (.saved, some (applySave qid ans flg a))
    else
      if authOk caller a.userId = false then (.notAuthorized, some a)
      else if a.submitted then (.alreadySubmitted, some a)
      else (.updateConflict, some a)

/-! ### deleteTest (student.controller.js lines 555–587) -/

/-- `deleteTest` responses. -/
inductive DeleteResp
  | deleted
  | notFound
  | notAuthorized
deriving Repr, DecidableEq

/-- `deleteTest`: read, ownership check, then `deleteOne`. -/
def deleteTest (caller : Caller) (st : Option Attempt) : DeleteResp × Option Attempt :=
  match st with
  | none => (.notFound, none)
  | some a =>
    if authOk caller a.userId then (.deleted, none)
    else (.notAuthorized, some a)

/-! ### getTestResult (student.controller.js lines 445–553)

The handler first probes the result cache (`testResult:` + testId) and, on a
hit, returns the cached payload at once — before the ownership check.  On a
miss it reads the attempt with
`.select('testId examId subjectId questionPaperId subjectName exam boardId
score correct total startedAt submittedAt results submitted questions')`.
That projection does NOT include `userId` (or `sessionId`), so in the
ownership check that follows, `test.userId` is `undefined`: an authenticated
caller always fails `!test.userId` and gets 403, and an anonymous caller
always passes `if (test.userId)`.  (The variant of this handler elsewhere in
the repository fixes this, selecting
`... userId sessionId` with the comment "include userId and sessionId for
authorization".)  In-progress attempts are answered with
`questions: test.questions.map(q => q.question)` — the stored snapshots —
and submitted attempts with the stored result, which is then cached. -/

/-- The `getTestResult` response payload (the fields the claims are about).
`questions` is present only in the in-progress shape; score fields only in
the submitted shape. -/
structure ResultView where
  testId : Nat
  score : Option ℚ
  correct : Option Nat
  total : Option Nat
  results : Option (List ResultEntry)
  submitted : Bool
  questions : Option (List TestQuestionDoc)
deriving Repr, DecidableEq

/-- The in-progress response of lines 488–522: the stored question snapshots
(as created by `createTest`, `correctIndex` included) are returned. -/
def inProgressView (a : Attempt) : ResultView :=
  { testId := a.testId
    score := none
    correct := none
    total := none
    results := none
    submitted := false
    questions := some (a.questions.map (fun q => q.question)) }

/-- The submitted response of lines 525–541. -/
def submittedView (a : Attempt) : ResultView :=
  { testId := a.testId
    score := a.score
    correct := a.correct
    total := a.total
    results := a.results
    submitted := true
    questions := none }

/-- `getTestResult` responses. -/
inductive GetResp
  | ok (v : ResultView)
  | notFound
  | notAuthorized
deriving Repr, DecidableEq

/-- `getTestResult`: cache probe, then read-with-projection, ownership check
on the projected document, then the in-progress or submitted response.  The
second component is the cache content afterwards (`cacheService.set` runs
only for submitted responses; the attempt store is never written). -/
def getTestResult (caller : Caller) (cache : Option ResultView) (st : Option Attempt) :
    GetResp × Option ResultView :=
  match cache with
  | some c => (.ok c, some c)
  | none =>
    match st with
    | none => (.notFound, none)
    | some a =>
      -- the select projection omits userId, so the check reads `undefined`
      let projectedUserId : Option Nat := none
      match caller with
      | .user _ =>
        -- `!test.userId` is true for the projected document: always 403
        (.notAuthorized, none)
      | .anon =>
        -- `if (test.userId)` is false for the projected document: always pass
        if projectedUserId.isSome then (.notAuthorized, none)
        else if a.submitted then (.ok (submittedView a), some (submittedView a))
        else (.ok (inProgressView a), none)

/-! ### submitTest (student.controller.js lines 290–443)

`submitTest` is a bounded retry loop (`retries = 3`).  Each iteration performs
two atomic store operations: the read (`findOne` selecting `_id testId userId
sessionId submitted questions score correct total results ... __v`) and the
conditional write (`findOneAndUpdate` on `{_id, submitted: false, __v}`).
Between them the handler computes the score in memory, and other handler
invocations for the same attempt may interleave.  We model one `submitTest`
invocation as a small-step process: one store access per step, with program
counter `SubPC`.  On a failed conditional write the code decrements
`retries`; while retries remain it sleeps `100 * (4 - retries)` ms and loops,
and on exhaustion it re-reads once, returning the stored result when some
other call has meanwhile submitted and otherwise throwing
`Failed to submit test after retries` (surfaced as a 500, the `Conflict`
exhaustion of the spec's taxonomy). -/

/-- The JSON responses of `submitTest`. -/
inductive SubmitResp
  | notFound
  | notAuthorized
  | already (score : Option ℚ) (correct : Option Nat) (total : Option Nat)
      (results : Option (List ResultEntry))
  | success (score : ℚ) (correct : Nat) (total : Nat) (results : List ResultEntry)
  | exhausted
deriving Repr, DecidableEq

/-- Program counter of one `submitTest` invocation.  `start r` is the top of
the while loop with `retries = r` (about to read); `cas` holds the observed
`__v` and the in-memory scoring result, about to attempt the conditional
write; `finalRead` is the post-exhaustion re-read of lines 403–415. -/
inductive SubPC
  | start (retries : Nat)
  | cas (retries : Nat) (obsVer : Nat) (comp : Scored)
  | finalRead
  | done (resp : SubmitResp)
deriving Repr, DecidableEq

/-- The `$set` of the successful conditional write (lines 376–385). -/
def finalize (a : Attempt) (comp : Scored) : Attempt :=
  { a with
    submitted := true
    submittedAt := some 1
    score := some comp.score
    correct := some comp.correct
    total := some comp.total
    results := some comp.results }

/-- One `submitTest` invocation: its caller, program counter, and ghost
instrumentation (never read by the transition function):
`reads` counts loop reads, `finalReads` counts post-exhaustion re-reads,
`casTries` counts conditional-write attempts, `sleeps` records the backoff
durations in ms, `computes` counts scoring computations. -/
structure SubProc where
  caller : Caller
  pc : SubPC
  reads : Nat
  finalReads : Nat
  casTries : Nat
  sleeps : List Nat
  computes : Nat
deriving Repr, DecidableEq

/-- A fresh `submitTest` invocation (`retries = 3`, line 295). -/
def initSub (caller : Caller) : SubProc :=
  { caller := caller, pc := .start 3, reads := 0, finalReads := 0, casTries := 0
    sleeps := [], computes := 0 }

/-- The failed-conditional-write path (lines 394–400): decrement `retries`;
if any remain, sleep `100 * (4 - retries)` ms and loop, else fall through to
the final re-read. -/
def casFail (p : SubProc) (r : Nat) (st : Option Attempt) : SubProc × Option Attempt :=
  let rNew := r - 1
  if 0 < rNew then
    ({ p with pc := .start rNew, casTries := p.casTries + 1
              sleeps := p.sleeps ++ [100 * (4 - rNew)] }, st)
  else
    ({ p with pc := .finalRead, casTries := p.casTries + 1 }, st)

/-- One atomic step of a `submitTest` invocation against the store.
`start`: the loop read — 404 when the attempt is gone, 403 on ownership
mismatch, the idempotent short-circuit when already submitted, otherwise the
scoring computation runs and the process moves to the conditional write.
`cas`: the conditional write, succeeding only on `submitted: false` and the
observed `__v`.  `finalRead`: the post-exhaustion re-read. -/
def submitTestStep (bank : List BankQuestion) (p : SubProc) (st : Option Attempt) :
    SubProc × Option Attempt :=
  match p.pc with
  | .start r =>
    match st with
    | none => ({ p with pc := .done .notFound, reads := p.reads + 1 }, st)
    | some a =>
      if authOk p.caller a.userId then
        if a.submitted then
          ({ p with pc := .done (.already a.score a.correct a.total a.results)
                    reads := p.reads + 1 }, st)
        else
          ({ p with pc := .cas r a.version (computeScored bank a.questions)
                    reads := p.reads + 1, computes := p.computes + 1 }, st)
      else
        ({ p with pc := .done .notAuthorized, reads := p.reads + 1 }, st)
  | .cas r v comp =>
    match st with
    | some a =>
      if a.submitted = false && a.version = v then
        ({ p with pc := .done (.success comp.score comp.correct comp.total comp.results)
                  casTries := p.casTries + 1 }, some (finalize a comp))
      else casFail p r st
    | none => casFail p r st
  | .finalRead =>
    match st with
    | some a =>
      if a.submitted then
        ({ p with pc := .done (.already a.score a.correct a.total a.results)
                  finalReads := p.finalReads + 1 }, st)
      else
        ({ p with pc := .done .exhausted, finalReads := p.finalReads + 1 }, st)
    | none => ({ p with pc := .done .exhausted, finalReads := p.finalReads + 1 }, st)
  | .done _ => (p, st)

/-! ### The concurrent system

Many `submitTest` invocations for the same attempt interleave; each step of
each invocation is one atomic store access.  `writes` is a ghost counter of
successful conditional writes, recognised as the store's `submitted` flag
flipping from false to true. -/

/-- Did this step persist a submission? -/
def persisted (st stNew : Option Attempt) : Bool :=
  match st, stNew with
  | some a, some aNew => !a.submitted && aNew.submitted
  | _, _ => false

/-- The shared store plus the interleaved `submitTest` invocations. -/
structure Sys where
  store : Option Attempt
  procs : List SubProc
  writes : Nat
deriving Repr, DecidableEq

/-- Run one step of invocation `i`. -/
def sysNext (bank : List BankQuestion) (s : Sys) (i : Fin s.procs.length) : Sys :=
  let p := s.procs.get i
  let r := submitTestStep bank p s.store
  { store := r.2
    procs := s.procs.set i r.1
    writes := s.writes + (if persisted s.store r.2 then 1 else 0) }

/-- The interleaving relation: some invocation takes its next atomic step. -/
inductive SysStep (bank : List BankQuestion) : Sys → Sys → Prop
  | mk (s : Sys) (i : Fin s.procs.length) : SysStep bank s (sysNext bank s i)

/-- Any interleaved execution. -/
def SysSteps (bank : List BankQuestion) : Sys → Sys → Prop :=
  Relation.ReflTransGen (SysStep bank)

/-- The initial configuration for M concurrent `submitTest` calls on one
attempt. -/
def initSys (a : Attempt) (callers : List Caller) : Sys :=
  { store := some a, procs := callers.map initSub, writes := 0 }

/-! ### Claim C4: scoring -/

/-- The spec's score formula, written from its words:
`round((correctCount / total) * 100, 2 decimal places)` — round half up to
two decimal places. -/
def specRound2dp (x : ℚ) : ℚ := ((Int.floor (x * 100 + 1 / 2) : ℚ)) / 100

/-- A snapshot document for the spec's worked scenario (its content is
irrelevant to scoring). -/
def scenarioSnapshot (i : Nat) : TestQuestionDoc :=
  { id := i, text := "", options := [], correctIndex := none, explanation := none
    questionNumber := i }

/-- One scenario bank question with the given authoritative index. -/
def scenarioBankQ (i : Nat) (ci : Int) : BankQuestion :=
  { id := i, text := "", options := [], correctIndex := ci, explanation := ""
    status := "published", createdBy := 0 }

/-- The spec scenario's question bank: authoritative indices `[0, 1, 2, 3]`. -/
def scenarioBank : List BankQuestion :=
  [scenarioBankQ 1 0, scenarioBankQ 2 1, scenarioBankQ 3 2, scenarioBankQ 4 3]

/-- The spec scenario's attempt entries: stored answers `[0, null, 2, 1]`. -/
def scenarioQuestions : List AttemptQuestion :=
  [{ questionId := 1, question := scenarioSnapshot 1, answer := some 0, flagged := false },
   { questionId := 2, question := scenarioSnapshot 2, answer := none, flagged := false },
   { questionId := 3, question := scenarioSnapshot 3, answer := some 2, flagged := false },
   { questionId := 4, question := scenarioSnapshot 4, answer := some 1, flagged := false }]

/-- Claim C4: a question is counted correct iff its stored answer is
non-null and equals the authoritative correct index; the persisted score is
`round((correctCount / total) * 100)` to 2 decimal places with
`total = number of questions`; and the spec scenario (4 questions, answers
`[0, null, 2, 1]`, authoritative `[0, 1, 2, 3]`) yields `correctCount = 2`,
`total = 4`, `score = 50.00`. -/
theorem submit_scoring_correct :
    (∀ (bank : List BankQuestion) (q : AttemptQuestion),
       (gradeQuestion bank q).isCorrect = true ↔
         ∃ v, q.answer = some v ∧
           (lookupQuestion bank q.questionId).map (fun b => b.correctIndex) = some v) ∧
    (∀ (bank : List BankQuestion) (qs : List AttemptQuestion),
       (computeScored bank qs).total = qs.length ∧
       (computeScored bank qs).correct = countCorrect (submitResults bank qs) ∧
       (computeScored bank qs).score =
         specRound2dp (((computeScored bank qs).correct : ℚ) /
           ((computeScored bank qs).total : ℚ) * 100)) ∧
    (computeScored scenarioBank scenarioQuestions).correct = 2 ∧
    (computeScored scenarioBank scenarioQuestions).total = 4 ∧
    (computeScored scenarioBank scenarioQuestions).score = 50 := by
  refine ⟨?_, ?_, by decide, by decide, ?_⟩
  · intro bank q
    cases hans : q.answer with
    | none => simp [gradeQuestion, hans]
    | some v =>
      cases hlk : lookupQuestion bank q.questionId with
      | none => simp [gradeQuestion, hans, hlk]
      | some b =>
        simp only [gradeQuestion, hans, hlk, Option.map_some]
        constructor
        · intro h
          exact ⟨v, rfl, by simpa using (of_decide_eq_true h).symm⟩
        · rintro ⟨w, hw, hw2⟩
          injection hw with hw
          injection hw2 with hw2
          subst hw
          simp [hw2]
  · intro bank qs
    refine ⟨rfl, rfl, ?_⟩
    show roundScore (rawScore (countCorrect (submitResults bank qs)) qs.length)
        = specRound2dp ((countCorrect (submitResults bank qs) : ℚ) / (qs.length : ℚ) * 100)
    rw [roundScore, jsRound_eq_floor, rawScore, specRound2dp]
  · have hcc : countCorrect (submitResults scenarioBank scenarioQuestions) = 2 := by decide
    have hscore : (computeScored scenarioBank scenarioQuestions).score =
        roundScore (rawScore (countCorrect (submitResults scenarioBank scenarioQuestions))
          scenarioQuestions.length) := rfl
    rw [hscore, hcc, show scenarioQuestions.length = 4 from rfl, roundScore,
      jsRound_eq_floor, rawScore]
    norm_num

/-! ### Claim C8: saving into a submitted attempt -/

/-- Claim C8: a `saveAnswer` on an already-submitted attempt whose ownership
check passes fails with the 400 `Test already submitted` rejection (the
spec taxonomy's `Conflict` — the caller is told, not silently ignored) and
the stored attempt is unchanged. -/
theorem saveAnswer_on_submitted_conflict (caller : Caller) (qid : Nat)
    (ans : Option (Option Int)) (flg : Option Bool) (a : Attempt)
    (hauth : authOk caller a.userId = true) (hsub : a.submitted = true) :
    saveAnswer caller qid ans flg (some a) = (.alreadySubmitted, some a) := by
  simp [saveAnswer, saveMatch, hsub, hauth]

/-- Witness for C8: a concrete anonymous submitted attempt. -/
def submittedAnonAttempt : Attempt :=
  { testId := 3, userId := none, sessionId := some 5
    questions := [{ questionId := 1, question := scenarioSnapshot 1, answer := some 0
                    flagged := false }]
    submitted := true, score := none, correct := some 1, total := some 1
    results := some [], submittedAt := some 1, version := 0 }

theorem saveAnswer_on_submitted_conflict_witness :
    authOk .anon submittedAnonAttempt.userId = true ∧
    submittedAnonAttempt.submitted = true ∧
    saveAnswer .anon 1 (some (some 2)) none (some submittedAnonAttempt)
      = (.alreadySubmitted, some submittedAnonAttempt) :=
  ⟨by decide, by decide,
    saveAnswer_on_submitted_conflict .anon 1 (some (some 2)) none submittedAnonAttempt
      (by decide) (by decide)⟩

/-! ### Claim C7: the answer write is an atomic partial update -/

/-- A non-matching entry is untouched by the arrayFilters update. -/
theorem applySaveEntry_of_ne (qid : Nat) (ans : Option (Option Int)) (flg : Option Bool)
    (e : AttemptQuestion) (h : e.questionId ≠ qid) :
    applySaveEntry qid ans flg e = e := by
  simp [applySaveEntry, h]

/-- The arrayFilters update never changes an entry's `questionId`. -/
theorem applySaveEntry_questionId (qid : Nat) (ans : Option (Option Int)) (flg : Option Bool)
    (e : AttemptQuestion) :
    (applySaveEntry qid ans flg e).questionId = e.questionId := by
  rw [applySaveEntry]
  split <;> rfl

/-- Entry-level commutation of updates for distinct question ids. -/
theorem applySaveEntry_comm (qid qid2 : Nat) (ans ans2 : Option (Option Int))
    (flg flg2 : Option Bool) (h : qid ≠ qid2) (e : AttemptQuestion) :
    applySaveEntry qid2 ans2 flg2 (applySaveEntry qid ans flg e)
      = applySaveEntry qid ans flg (applySaveEntry qid2 ans2 flg2 e) := by
  by_cases h1 : e.questionId = qid
  · have h2 : e.questionId ≠ qid2 := fun hh => h (h1.symm.trans hh)
    rw [applySaveEntry_of_ne qid2 ans2 flg2 e h2,
      applySaveEntry_of_ne qid2 ans2 flg2 (applySaveEntry qid ans flg e)
        (by rw [applySaveEntry_questionId]; exact h2)]
  · by_cases h2 : e.questionId = qid2
    · have h1b : e.questionId ≠ qid := h1
      rw [applySaveEntry_of_ne qid ans flg e h1b,
        applySaveEntry_of_ne qid ans flg (applySaveEntry qid2 ans2 flg2 e)
          (by rw [applySaveEntry_questionId]; exact h1b)]
    · rw [applySaveEntry_of_ne qid ans flg e h1, applySaveEntry_of_ne qid2 ans2 flg2 e h2,
        applySaveEntry_of_ne qid ans flg e h1]

/-- Claim C7: an accepted `saveAnswer` is the single atomic conditional
update `applySave`: it leaves every non-`questions` field of the attempt
untouched, maps each `questions` entry pointwise (non-matching entries are
identical, a matching entry changes only `answer`/`flagged`), and two
accepted updates for distinct questions commute with neither update lost. -/
theorem saveAnswer_atomic_partial_update (caller : Caller) (qid : Nat)
    (ans : Option (Option Int)) (flg : Option Bool) (a : Attempt)
    (hm : saveMatch caller a = true) :
    saveAnswer caller qid ans flg (some a) = (.saved, some (applySave qid ans flg a)) ∧
    ((applySave qid ans flg a).testId = a.testId ∧
     (applySave qid ans flg a).userId = a.userId ∧
     (applySave qid ans flg a).sessionId = a.sessionId ∧
     (applySave qid ans flg a).submitted = a.submitted ∧
     (applySave qid ans flg a).score = a.score ∧
     (applySave qid ans flg a).correct = a.correct ∧
     (applySave qid ans flg a).total = a.total ∧
     (applySave qid ans flg a).results = a.results ∧
     (applySave qid ans flg a).submittedAt = a.submittedAt ∧
     (applySave qid ans flg a).version = a.version) ∧
    (∀ i : Nat, (applySave qid ans flg a).questions[i]?
       = (a.questions[i]?).map (applySaveEntry qid ans flg)) ∧
    (∀ e : AttemptQuestion,
       (e.questionId ≠ qid → applySaveEntry qid ans flg e = e) ∧
       (e.questionId = qid →
          (applySaveEntry qid ans flg e).questionId = e.questionId ∧
          (applySaveEntry qid ans flg e).question = e.question ∧
          (applySaveEntry qid ans flg e).answer = ans.getD e.answer ∧
          (applySaveEntry qid ans flg e).flagged = flg.getD e.flagged)) ∧
    (∀ (qid2 : Nat) (ans2 : Option (Option Int)) (flg2 : Option Bool), qid2 ≠ qid →
       applySave qid2 ans2 flg2 (applySave qid ans flg a)
         = applySave qid ans flg (applySave qid2 ans2 flg2 a) ∧
       (∀ e : AttemptQuestion,
          (e.questionId = qid →
             (applySaveEntry qid2 ans2 flg2 (applySaveEntry qid ans flg e)).answer
               = ans.getD e.answer) ∧
          (e.questionId = qid2 →
             (applySaveEntry qid2 ans2 flg2 (applySaveEntry qid ans flg e)).answer
               = ans2.getD e.answer))) := by
  refine ⟨?_, ?_, ?_, ?_, ?_⟩
  · simp [saveAnswer, hm]
  · simp [applySave]
  · intro i
    simp [applySave, List.getElem?_map]
  · intro e
    constructor
    · intro hne
      exact applySaveEntry_of_ne qid ans flg e hne
    · intro heq
      simp [applySaveEntry, heq]
  · intro qid2 ans2 flg2 hne
    refine ⟨?_, ?_⟩
    · simp only [applySave, List.map_map]
      refine congrArg (fun qs => { a with questions := qs }) ?_
      apply List.map_congr_left
      intro e _
      exact applySaveEntry_comm qid qid2 ans ans2 flg flg2 (fun hh => hne hh.symm) e
    · intro e
      constructor
      · intro h1
        have h2 : (applySaveEntry qid ans flg e).questionId ≠ qid2 := by
          rw [applySaveEntry_questionId, h1]
          exact fun hh => hne hh.symm
        rw [applySaveEntry_of_ne qid2 ans2 flg2 _ h2]
        simp [applySaveEntry, h1]
      · intro h2
        have h1 : e.questionId ≠ qid := fun hh => hne (h2.symm.trans hh)
        rw [applySaveEntry_of_ne qid ans flg e h1]
        simp [applySaveEntry, h2]

/-- Witness for C7: an accepted anonymous save on a two-question attempt. -/
def inProgressAnonAttempt : Attempt :=
  { testId := 4, userId := none, sessionId := some 5
    questions := [{ questionId := 1, question := scenarioSnapshot 1, answer := none
                    flagged := false },
                  { questionId := 2, question := scenarioSnapshot 2, answer := none
                    flagged := false }]
    submitted := false, score := none, correct := none, total := none
    results := none, submittedAt := none, version := 0 }

theorem saveAnswer_atomic_partial_update_witness :
    saveMatch .anon inProgressAnonAttempt = true ∧
    saveAnswer .anon 1 (some (some 2)) none (some inProgressAnonAttempt)
      = (.saved, some (applySave 1 (some (some 2)) none inProgressAnonAttempt)) :=
  ⟨by decide,
    (saveAnswer_atomic_partial_update .anon 1 (some (some 2)) none inProgressAnonAttempt
      (by decide)).1⟩

/-! ### Claim C2: submit idempotence -/

/-- Claim C2: when the `submitTest` read finds `submitted: true`, the call
returns the stored `score/correct/total/results` with `alreadySubmitted`,
performs no scoring computation (the `computes` ghost is untouched) and no
write (the store is returned unchanged); and after a first submission
persists `finalize a comp`, a second `submitTest` read returns exactly the
persisted `comp` values. -/
theorem submitTest_idempotent (bank : List BankQuestion) (p : SubProc) (a : Attempt) (r : Nat)
    (hpc : p.pc = SubPC.start r) (hauth : authOk p.caller a.userId = true) :
    (a.submitted = true →
       submitTestStep bank p (some a)
         = ({ p with pc := SubPC.done (SubmitResp.already a.score a.correct a.total a.results)
                     reads := p.reads + 1 }, some a)) ∧
    (a.submitted = false →
       submitTestStep bank p (some a)
         = ({ p with pc := SubPC.cas r a.version (computeScored bank a.questions)
                     reads := p.reads + 1, computes := p.computes + 1 }, some a) ∧
       (∀ q : SubProc,
          q.pc = SubPC.cas r a.version (computeScored bank a.questions) →
          submitTestStep bank q (some a)
            = ({ q with pc := SubPC.done (SubmitResp.success
                    (computeScored bank a.questions).score
                    (computeScored bank a.questions).correct
                    (computeScored bank a.questions).total
                    (computeScored bank a.questions).results)
                        casTries := q.casTries + 1 },
               some (finalize a (computeScored bank a.questions)))) ∧
       (∀ (q2 : SubProc) (r2 : Nat), q2.pc = SubPC.start r2 →
          authOk q2.caller a.userId = true →
          submitTestStep bank q2 (some (finalize a (computeScored bank a.questions)))
            = ({ q2 with pc := SubPC.done (SubmitResp.already
                    (some (computeScored bank a.questions).score)
                    (some (computeScored bank a.questions).correct)
                    (some (computeScored bank a.questions).total)
                    (some (computeScored bank a.questions).results))
                         reads := q2.reads + 1 },
               some (finalize a (computeScored bank a.questions))))) := by
  constructor
  · intro hsub
    simp [submitTestStep, hpc, hauth, hsub]
  · intro hsub
    refine ⟨by simp [submitTestStep, hpc, hauth, hsub], ?_, ?_⟩
    · intro q hq
      simp [submitTestStep, hq, hsub]
    · intro q2 r2 hq2 hauth2
      have hu : (finalize a (computeScored bank a.questions)).userId = a.userId := rfl
      simp [submitTestStep, hq2, finalize, hauth2]

/-- Witness for C2: an in-progress anonymous attempt submitted twice. -/
theorem submitTest_idempotent_witness :
    (initSub .anon).pc = SubPC.start 3 ∧
    authOk (initSub .anon).caller inProgressAnonAttempt.userId = true ∧
    inProgressAnonAttempt.submitted = false ∧
    submitTestStep scenarioBank (initSub .anon) (some inProgressAnonAttempt)
      = ({ initSub .anon with
            pc := SubPC.cas 3 inProgressAnonAttempt.version
              (computeScored scenarioBank inProgressAnonAttempt.questions)
            reads := (initSub .anon).reads + 1
            computes := (initSub .anon).computes + 1 }, some inProgressAnonAttempt) :=
  ⟨by decide, by decide, by decide,
    ((submitTest_idempotent scenarioBank (initSub .anon) inProgressAnonAttempt 3
      (by decide) (by decide)).2 (by decide)).1⟩

/-! ### Claim C6: a submitted attempt is immutable -/

/-- The failed conditional write never touches the store. -/
theorem casFail_store (p : SubProc) (r : Nat) (st : Option Attempt) :
    (casFail p r st).2 = st := by
  rw [casFail]
  split <;> rfl

/-- Claim C6: once `submitted: true`, neither `saveAnswer` (its filter
requires `submitted: false`) nor any `submitTest` step (the conditional
write requires `submitted: false`) changes the stored attempt in any way —
in particular `questions`, `score`, `correct`, `total`, `results` and
`submitted` itself keep their values, so the status never returns to
InProgress — and the only state change still possible is `deleteTest` by a
caller who passes the ownership check, which removes the whole record. -/
theorem submitted_attempt_immutable (a : Attempt) (hsub : a.submitted = true) :
    (∀ (caller : Caller) (qid : Nat) (ans : Option (Option Int)) (flg : Option Bool),
       (saveAnswer caller qid ans flg (some a)).2 = some a) ∧
    (∀ (bank : List BankQuestion) (p : SubProc),
       (submitTestStep bank p (some a)).2 = some a) ∧
    (∀ caller : Caller,
       (authOk caller a.userId = true → deleteTest caller (some a) = (.deleted, none)) ∧
       (authOk caller a.userId = false →
          deleteTest caller (some a) = (.notAuthorized, some a))) := by
  refine ⟨?_, ?_, ?_⟩
  · intro caller qid ans flg
    have hmatch : saveMatch caller a = false := by
      simp [saveMatch, hsub]
    rw [saveAnswer, hmatch]
    simp only [Bool.false_eq_true, if_false]
    by_cases hauth : authOk caller a.userId = false
    · simp [hauth]
    · simp [hauth, hsub]
  · intro bank p
    rcases hp : p.pc with r | ⟨r, v, comp⟩ | _ | resp
    · by_cases hauth : authOk p.caller a.userId
      · simp [submitTestStep, hp, hauth, hsub]
      · simp [submitTestStep, hp, hauth]
    · have hcond : (a.submitted = false && a.version = v) = false := by
        simp [hsub]
      rw [submitTestStep, hp]
      simp only [hcond, Bool.false_eq_true, if_false]
      exact casFail_store p r (some a)
    · simp [submitTestStep, hp, hsub]
    · simp [submitTestStep, hp]
  · intro caller
    constructor
    · intro hauth
      simp [deleteTest, hauth]
    · intro hauth
      simp [deleteTest, hauth]

/-- Witness for C6: the concrete submitted attempt is untouched by a save
and by a submit step, and deleted only by its (anonymous) owner. -/
theorem submitted_attempt_immutable_witness :
    submittedAnonAttempt.submitted = true ∧
    (saveAnswer .anon 1 (some (some 2)) none (some submittedAnonAttempt)).2
      = some submittedAnonAttempt ∧
    (submitTestStep scenarioBank (initSub .anon) (some submittedAnonAttempt)).2
      = some submittedAnonAttempt ∧
    deleteTest .anon (some submittedAnonAttempt) = (.deleted, none) :=
  ⟨by decide,
    (submitted_attempt_immutable submittedAnonAttempt (by decide)).1 .anon 1 (some (some 2)) none,
    (submitted_attempt_immutable submittedAnonAttempt (by decide)).2.1 scenarioBank (initSub .anon),
    ((submitted_attempt_immutable submittedAnonAttempt (by decide)).2.2 .anon).1 (by decide)⟩

/-! ### Claim C10: questions missing from the bank at submission time -/

/-- Claim C10: the authoritative lookup at submission has no
published-status filter — any bank entry with matching id is found, whatever
its `status` (third conjunct, and the second places no status hypothesis) —
and when a stored `questionId` is absent from the bank the result entry
records `correctAnswer = null` and is never counted correct (even when the
stored answer is also null), while the conditional write still succeeds. -/
theorem submit_missing_question (bank : List BankQuestion) :
    (∀ e : AttemptQuestion, lookupQuestion bank e.questionId = none →
       (gradeQuestion bank e).correctAnswer = none ∧
       (gradeQuestion bank e).isCorrect = false) ∧
    (∀ (b : BankQuestion) (e : AttemptQuestion), lookupQuestion bank e.questionId = some b →
       (gradeQuestion bank e).correctAnswer = some b.correctIndex ∧
       ((gradeQuestion bank e).isCorrect = true ↔ e.answer = some b.correctIndex)) ∧
    (∀ (b : BankQuestion) (rest : List BankQuestion),
       lookupQuestion (b :: rest) b.id = some b) ∧
    (∀ (p : SubProc) (a : Attempt) (r : Nat),
       p.pc = SubPC.cas r a.version (computeScored bank a.questions) →
       a.submitted = false →
       (submitTestStep bank p (some a)).2
         = some (finalize a (computeScored bank a.questions)) ∧
       (finalize a (computeScored bank a.questions)).submitted = true) := by
  refine ⟨?_, ?_, ?_, ?_⟩
  · intro e hlk
    cases hans : e.answer <;> simp [gradeQuestion, hlk, hans]
  · intro b e hlk
    cases hans : e.answer with
    | none => simp [gradeQuestion, hlk, hans]
    | some v =>
      refine ⟨by simp [gradeQuestion, hlk], ?_⟩
      simp [gradeQuestion, hlk, hans]
  · intro b rest
    simp [lookupQuestion]
  · intro p a r hp hsub
    refine ⟨?_, rfl⟩
    simp [submitTestStep, hp, hsub]

/-- Witness for C10: an attempt whose only question is gone from the bank
(empty bank): graded incorrect with null correctAnswer, and the write still
succeeds. -/
theorem submit_missing_question_witness :
    lookupQuestion [] (1 : Nat) = none ∧
    (gradeQuestion [] { questionId := 1, question := scenarioSnapshot 1, answer := none
                        flagged := false }).correctAnswer = none ∧
    (gradeQuestion [] { questionId := 1, question := scenarioSnapshot 1, answer := none
                        flagged := false }).isCorrect = false :=
  ⟨by decide,
    ((submit_missing_question []).1
      { questionId := 1, question := scenarioSnapshot 1, answer := none, flagged := false }
      (by decide)).1,
    ((submit_missing_question []).1
      { questionId := 1, question := scenarioSnapshot 1, answer := none, flagged := false }
      (by decide)).2⟩

/-! ### Claim C3: the correct-answer field reaches the caller (code bug)

`createTest` fetches the test questions with `.select('-createdBy')` — which
keeps `correctIndex` (and `explanation`) — and returns them verbatim in the
201 payload; `getTestResult` on an InProgress attempt returns the stored
snapshots, which carry the same fields.  Contrast `getQuestions` /
`getQuestion` in `question.controller.js`, which strip
`-correctIndex -createdBy` for non-admin callers. -/

/-- A one-question published bank for the leak evaluation. -/
def bankLeak : List BankQuestion :=
  [{ id := 10, text := "2+2?", options := ["3", "4", "5"], correctIndex := 1
     explanation := "arithmetic", status := "published", createdBy := 99 }]

/-- Question list of a `createTest` response. -/
def createdQuestions : CreateResp → List TestQuestionDoc
  | .created r => r.questions
  | .noQuestions => []

/-- Persisted attempt of a `createTest` response. -/
def createdAttempt : CreateResp → Option Attempt
  | .created r => some r.attempt
  | .noQuestions => none

/-- The correct-answer fields visible in a `getTestResult` response. -/
def viewCorrectIndexes : GetResp → List (Option Int)
  | .ok v => (v.questions.getD []).map (fun d => d.correctIndex)
  | _ => []

/-- Claim C3 fails on the code: for a successful anonymous `createTest` on
`bankLeak`, the returned question list carries `correctIndex = some 1`
(the claim requires it stripped), and `getTestResult` on the resulting
InProgress attempt returns the same unstripped snapshot. -/
theorem createTest_leaks_correct_answers :
    (createdQuestions (createTest .anon none bankLeak)).map (fun d => d.correctIndex)
      = [some 1] ∧
    viewCorrectIndexes
      (getTestResult .anon none (createdAttempt (createTest .anon none bankLeak))).1
      = [some 1] := by
  constructor <;> decide

/-! ### Claim C5: the identity guard is skipped in getTestResult (code bug)

The cache probe of `getTestResult` returns before any ownership check, and
the database path's `.select(...)` omits `userId`, so the subsequent check
reads `undefined`: an anonymous caller passes for any attempt (including an
owned one) and an authenticated caller — the owner included — always gets
403.  The other operations (`saveAnswer`, `submitTest`, `deleteTest`) do
check ownership before mutating. -/

/-- A submitted attempt owned by authenticated user 7. -/
def ownedAttempt : Attempt :=
  { testId := 7, userId := some 7, sessionId := none
    questions := [], submitted := true, score := some 80, correct := some 4
    total := some 5, results := some [], submittedAt := some 1, version := 0 }

/-- Claim C5 fails on the code: an anonymous caller reads the full result of
user 7's attempt (no Forbidden); any authenticated caller is served straight
from the result cache with no ownership check; and even the owner is
rejected on the database path because `userId` is missing from the
projection. -/
theorem getTestResult_skips_identity_guard :
    getTestResult .anon none (some ownedAttempt)
      = (.ok (submittedView ownedAttempt), some (submittedView ownedAttempt)) ∧
    (GetResp.ok (submittedView ownedAttempt) ≠ GetResp.notAuthorized) ∧
    (∀ v : ResultView, getTestResult (.user 9) (some v) (some ownedAttempt) = (.ok v, some v)) ∧
    getTestResult (.user 7) none (some ownedAttempt) = (.notAuthorized, none) := by
  refine ⟨rfl, fun h => GetResp.noConfusion h, fun v => rfl, rfl⟩

/-! ### Claim C1: race safety of concurrent submits

The invariant: before any successful conditional write the store still holds
the initial InProgress attempt, every in-flight conditional write observed
its version, and the only finished invocations were rejected by the
ownership check; after the single successful write the store holds a fixed
submitted record and every finished result-carrying invocation reported
exactly its fields. -/

/-- Does a response report a result to the caller (success or
alreadySubmitted)? -/
def isResult : SubmitResp → Bool
  | .success _ _ _ _ => true
  | .already _ _ _ _ => true
  | _ => false

/-- A result-carrying response agrees with the stored attempt. -/
def RespMatches (a : Attempt) : SubmitResp → Prop
  | .success s c t r =>
      a.score = some s ∧ a.correct = some c ∧ a.total = some t ∧ a.results = some r
  | .already s c t r => a.score = s ∧ a.correct = c ∧ a.total = t ∧ a.results = r
  | _ => True

/-- Per-invocation invariant before any submission persisted. -/
def preProcOK (a0 : Attempt) (p : SubProc) : Prop :=
  match p.pc with
  | .start _ => True
  | .cas _ v _ => v = a0.version
  | .finalRead => False
  | .done resp => resp = SubmitResp.notAuthorized ∧ authOk p.caller a0.userId = false

/-- Per-invocation invariant after the submission persisted. -/
def postProcOK (aF : Attempt) (p : SubProc) : Prop :=
  match p.pc with
  | .done resp => resp = SubmitResp.notAuthorized ∨ RespMatches aF resp
  | _ => True

/-- System invariant, phase 1: no conditional write has succeeded yet. -/
def PreInv (a0 : Attempt) (s : Sys) : Prop :=
  s.writes = 0 ∧ s.store = some a0 ∧ ∀ p ∈ s.procs, preProcOK a0 p

/-- System invariant, phase 2: exactly one conditional write has succeeded. -/
def PostInv (s : Sys) : Prop :=
  s.writes = 1 ∧ ∃ aF, s.store = some aF ∧ aF.submitted = true ∧
    ∀ p ∈ s.procs, postProcOK aF p

/-- The two-phase invariant of a submit race. -/
def SubmitInv (a0 : Attempt) (s : Sys) : Prop := PreInv a0 s ∨ PostInv s

/-- A step that leaves the store unchanged persists nothing. -/
theorem persisted_refl (st : Option Attempt) : persisted st st = false := by
  cases st with
  | none => rfl
  | some a => cases h : a.submitted <;> simp [persisted, h]

/-- Unfolding `sysNext` through a computed step. -/
theorem sysNext_eq (bank : List BankQuestion) (s : Sys) (i : Fin s.procs.length)
    (a : Option Attempt) (pN : SubProc) (stN : Option Attempt)
    (hsa : s.store = a)
    (h : submitTestStep bank (s.procs.get i) a = (pN, stN)) :
    sysNext bank s i = { store := stN, procs := s.procs.set i pN
                         writes := s.writes + if persisted a stN then 1 else 0 } := by
  rw [sysNext, hsa, h]

/-- Loop read on an InProgress attempt with passing ownership check: score
and move to the conditional write. -/
theorem step_start_compute (bank : List BankQuestion) (p : SubProc) (a : Attempt) (r : Nat)
    (hp : p.pc = SubPC.start r) (hauth : authOk p.caller a.userId = true)
    (hsub : a.submitted = false) :
    submitTestStep bank p (some a) =
      ({ p with pc := SubPC.cas r a.version (computeScored bank a.questions),
                reads := p.reads + 1, computes := p.computes + 1 }, some a) := by
  simp [submitTestStep, hp, hauth, hsub]

/-- Loop read on a Submitted attempt with passing ownership check: the
idempotent short-circuit. -/
theorem step_start_already (bank : List BankQuestion) (p : SubProc) (a : Attempt) (r : Nat)
    (hp : p.pc = SubPC.start r) (hauth : authOk p.caller a.userId = true)
    (hsub : a.submitted = true) :
    submitTestStep bank p (some a) =
      ({ p with pc := SubPC.done (SubmitResp.already a.score a.correct a.total a.results),
                reads := p.reads + 1 }, some a) := by
  simp [submitTestStep, hp, hauth, hsub]

/-- Loop read with failing ownership check: 403. -/
theorem step_start_forbidden (bank : List BankQuestion) (p : SubProc) (a : Attempt) (r : Nat)
    (hp : p.pc = SubPC.start r) (hauth : authOk p.caller a.userId = false) :
    submitTestStep bank p (some a) =
      ({ p with pc := SubPC.done SubmitResp.notAuthorized, reads := p.reads + 1 }, some a) := by
  simp [submitTestStep, hp, hauth]

/-- Conditional write against an InProgress store at the observed version:
it succeeds and persists the scored fields. -/
theorem step_cas_success (bank : List BankQuestion) (p : SubProc) (a : Attempt) (r : Nat)
    (comp : Scored) (hp : p.pc = SubPC.cas r a.version comp) (hsub : a.submitted = false) :
    submitTestStep bank p (some a) =
      ({ p with pc := SubPC.done (SubmitResp.success comp.score comp.correct comp.total
                comp.results),
                casTries := p.casTries + 1 }, some (finalize a comp)) := by
  simp [submitTestStep, hp, hsub]

/-- Conditional write against an already-Submitted store: it fails. -/
theorem step_cas_fail_submitted (bank : List BankQuestion) (p : SubProc) (a : Attempt)
    (r v : Nat) (comp : Scored) (hp : p.pc = SubPC.cas r v comp) (hsub : a.submitted = true) :
    submitTestStep bank p (some a) = casFail p r (some a) := by
  rw [submitTestStep, hp]
  simp [hsub]

/-- Post-exhaustion re-read of a Submitted store: the stored result is
returned as alreadySubmitted. -/
theorem step_finalRead_already (bank : List BankQuestion) (p : SubProc) (a : Attempt)
    (hp : p.pc = SubPC.finalRead) (hsub : a.submitted = true) :
    submitTestStep bank p (some a) =
      ({ p with pc := SubPC.done (SubmitResp.already a.score a.correct a.total a.results),
                finalReads := p.finalReads + 1 }, some a) := by
  simp [submitTestStep, hp, hsub]

/-- Post-exhaustion re-read of a store that is still InProgress: the call
fails (`Failed to submit test after retries`). -/
theorem step_finalRead_exhausted (bank : List BankQuestion) (p : SubProc) (a : Attempt)
    (hp : p.pc = SubPC.finalRead) (hsub : a.submitted = false) :
    submitTestStep bank p (some a) =
      ({ p with pc := SubPC.done SubmitResp.exhausted,
                finalReads := p.finalReads + 1 }, some a) := by
  simp [submitTestStep, hp, hsub]

/-- A finished invocation does not act again. -/
theorem step_done (bank : List BankQuestion) (p : SubProc) (st : Option Attempt)
    (resp : SubmitResp) (hp : p.pc = SubPC.done resp) :
    submitTestStep bank p st = (p, st) := by
  simp [submitTestStep, hp]

/-- Preservation of the two-phase invariant by every interleaved step. -/
theorem submitInv_step (bank : List BankQuestion) (a0 : Attempt) (hsub : a0.submitted = false)
    (s : Sys) (i : Fin s.procs.length) (hinv : SubmitInv a0 s) :
    SubmitInv a0 (sysNext bank s i) := by
  have hpmem : s.procs.get i ∈ s.procs := s.procs.get_mem i.1 i.2
  rcases hinv with ⟨hw, hst, hpr⟩ | ⟨hw, aF, hst, hsubF, hpr⟩
  · -- phase 1
    have hpOK := hpr (s.procs.get i) hpmem
    rcases hp : (s.procs.get i).pc with r | ⟨r, v, comp⟩ | - | resp
    · by_cases hauth : authOk (s.procs.get i).caller a0.userId = true
      · rw [sysNext_eq bank s i (some a0) _ _ hst
          (step_start_compute bank (s.procs.get i) a0 r hp hauth hsub)]
        refine Or.inl ⟨by simp [persisted_refl, hw], rfl, ?_⟩
        intro q hq
        rcases List.mem_or_eq_of_mem_set hq with hq2 | rfl
        · exact hpr q hq2
        · exact rfl
      · rw [Bool.not_eq_true] at hauth
        rw [sysNext_eq bank s i (some a0) _ _ hst
          (step_start_forbidden bank (s.procs.get i) a0 r hp hauth)]
        refine Or.inl ⟨by simp [persisted_refl, hw], rfl, ?_⟩
        intro q hq
        rcases List.mem_or_eq_of_mem_set hq with hq2 | rfl
        · exact hpr q hq2
        · exact ⟨rfl, hauth⟩
    · -- conditional write in phase 1: it succeeds
      have hv : v = a0.version := by
        have := hpOK
        rw [preProcOK, hp] at this
        exact this
      subst hv
      rw [sysNext_eq bank s i (some a0) _ _ hst
        (step_cas_success bank (s.procs.get i) a0 r comp hp hsub)]
      refine Or.inr ⟨?_, finalize a0 comp, rfl, rfl, ?_⟩
      · simp [persisted, hsub, finalize, hw]
      · intro q hq
        rcases List.mem_or_eq_of_mem_set hq with hq2 | rfl
        · have hq3 := hpr q hq2
          rw [preProcOK] at hq3
          rw [postProcOK]
          rcases hq4 : q.pc with - | - | - | resp2
          · trivial
          · trivial
          · trivial
          · rw [hq4] at hq3
            exact Or.inl hq3.1
        · exact Or.inr ⟨rfl, rfl, rfl, rfl⟩
    · -- finalRead impossible in phase 1
      have := hpOK
      rw [preProcOK, hp] at this
      exact absurd this (fun h => h)
    · -- done: stutter
      rw [sysNext_eq bank s i s.store _ _ rfl (step_done bank (s.procs.get i) s.store resp hp)]
      refine Or.inl ⟨by simp [persisted_refl, hw], hst, ?_⟩
      intro q hq
      rcases List.mem_or_eq_of_mem_set hq with hq2 | rfl
      · exact hpr q hq2
      · exact hpr _ hpmem
  · -- phase 2
    rcases hp : (s.procs.get i).pc with r | ⟨r, v, comp⟩ | - | resp
    · by_cases hauth : authOk (s.procs.get i).caller aF.userId = true
      · rw [sysNext_eq bank s i (some aF) _ _ hst
          (step_start_already bank (s.procs.get i) aF r hp hauth hsubF)]
        refine Or.inr ⟨by simp [persisted_refl, hw], aF, rfl, hsubF, ?_⟩
        intro q hq
        rcases List.mem_or_eq_of_mem_set hq with hq2 | rfl
        · exact hpr q hq2
        · exact Or.inr ⟨rfl, rfl, rfl, rfl⟩
      · rw [Bool.not_eq_true] at hauth
        rw [sysNext_eq bank s i (some aF) _ _ hst
          (step_start_forbidden bank (s.procs.get i) aF r hp hauth)]
        refine Or.inr ⟨by simp [persisted_refl, hw], aF, rfl, hsubF, ?_⟩
        intro q hq
        rcases List.mem_or_eq_of_mem_set hq with hq2 | rfl
        · exact hpr q hq2
        · exact Or.inl rfl
    · -- conditional write in phase 2: it fails
      rcases hcf : casFail (s.procs.get i) r (some aF) with ⟨pN, stN⟩
      have hstN : stN = some aF := by
        have := casFail_store (s.procs.get i) r (some aF)
        rw [hcf] at this
        exact this
      subst hstN
      rw [sysNext_eq bank s i (some aF) _ _ hst
        ((step_cas_fail_submitted bank (s.procs.get i) aF r v comp hp hsubF).trans hcf)]
      refine Or.inr ⟨by simp [persisted_refl, hw], aF, rfl, hsubF, ?_⟩
      intro q hq
      rcases List.mem_or_eq_of_mem_set hq with hq2 | rfl
      · exact hpr q hq2
      · -- the failed write leaves the invocation at start or finalRead
        rw [postProcOK]
        have hpc : q.pc = SubPC.start (r - 1) ∨ q.pc = SubPC.finalRead := by
          rw [casFail] at hcf
          by_cases h0 : 0 < r - 1
          · rw [if_pos h0] at hcf
            cases hcf
            exact Or.inl rfl
          · rw [if_neg h0] at hcf
            cases hcf
            exact Or.inr rfl
        rcases hpc with hpc | hpc <;> rw [hpc] <;> trivial
    · -- final re-read in phase 2: returns the stored result
      rw [sysNext_eq bank s i (some aF) _ _ hst
        (step_finalRead_already bank (s.procs.get i) aF hp hsubF)]
      refine Or.inr ⟨by simp [persisted_refl, hw], aF, rfl, hsubF, ?_⟩
      intro q hq
      rcases List.mem_or_eq_of_mem_set hq with hq2 | rfl
      · exact hpr q hq2
      · exact Or.inr ⟨rfl, rfl, rfl, rfl⟩
    · -- done: stutter
      rw [sysNext_eq bank s i s.store _ _ rfl (step_done bank (s.procs.get i) s.store resp hp)]
      refine Or.inr ⟨by simp [persisted_refl, hw], aF, hst, hsubF, ?_⟩
      intro q hq
      rcases List.mem_or_eq_of_mem_set hq with hq2 | rfl
      · exact hpr q hq2
      · exact hpr _ hpmem

/-- The invariant holds along every interleaved execution. -/
theorem submitInv_steps (bank : List BankQuestion) (a0 : Attempt) (hsub : a0.submitted = false)
    (s0 sF : Sys) (h0 : SubmitInv a0 s0) (hsteps : SysSteps bank s0 sF) :
    SubmitInv a0 sF := by
  induction hsteps with
  | refl => exact h0
  | tail hs hstep ih =>
    cases hstep with
    | mk i => exact submitInv_step bank a0 hsub _ i ih

/-- Claim C1: for any number of concurrent `submitTest` invocations on an
InProgress attempt, at most one performs the successful conditional write
(the write is conditioned on `submitted: false` and the `__v` read in step
1), so the score is persisted exactly once when every invocation finishes
and at least one passes the ownership check; and every invocation that
reports a result (success or alreadySubmitted) reports exactly the final
stored `score/correct/total/results`. -/
theorem submitTest_race_exactly_once (bank : List BankQuestion) (a0 : Attempt) (s0 sF : Sys)
    (hsub : a0.submitted = false)
    (hstore : s0.store = some a0) (hwrites : s0.writes = 0)
    (hprocs : ∀ p ∈ s0.procs, p.pc = SubPC.start 3)
    (hsteps : SysSteps bank s0 sF) :
    sF.writes ≤ 1 ∧
    (∀ p ∈ sF.procs, ∀ resp, p.pc = SubPC.done resp → isResult resp = true →
       ∃ aF, sF.store = some aF ∧ aF.submitted = true ∧ RespMatches aF resp) ∧
    ((∀ p ∈ sF.procs, ∃ resp, p.pc = SubPC.done resp) →
     (∃ p ∈ sF.procs, authOk p.caller a0.userId = true) →
     sF.writes = 1) := by
  have h0 : SubmitInv a0 s0 := by
    refine Or.inl ⟨hwrites, hstore, ?_⟩
    intro p hp
    rw [preProcOK, hprocs p hp]
    trivial
  have hF := submitInv_steps bank a0 hsub s0 sF h0 hsteps
  rcases hF with ⟨hw, hst, hpr⟩ | ⟨hw, aF, hst, hsubF, hpr⟩
  · refine ⟨by omega, ?_, ?_⟩
    · intro p hp resp hresp hres
      have h2 := hpr p hp
      rw [preProcOK, hresp] at h2
      rw [h2.1] at hres
      exact absurd hres (by simp [isResult])
    · rintro hdone ⟨p, hp, hauth⟩
      obtain ⟨resp, hresp⟩ := hdone p hp
      have h2 := hpr p hp
      rw [preProcOK, hresp] at h2
      rw [h2.2] at hauth
      exact absurd hauth (by simp)
  · refine ⟨by omega, ?_, fun _ _ => hw⟩
    intro p hp resp hresp hres
    have h2 := hpr p hp
    rw [postProcOK, hresp] at h2
    rcases h2 with h2 | h2
    · rw [h2] at hres
      exact absurd hres (by simp [isResult])
    · exact ⟨aF, hst, hsubF, h2⟩

/-- Witness system for the race theorems: one anonymous `submitTest`
invocation on a fresh anonymous InProgress attempt. -/
def raceSys0 : Sys := initSys inProgressAnonAttempt [.anon]

/-- The system after the invocation's loop read. -/
def raceSys1 : Sys := sysNext scenarioBank raceSys0 ⟨0, by decide⟩

/-- The system after the invocation's successful conditional write. -/
def raceSys2 : Sys := sysNext scenarioBank raceSys1 ⟨0, by decide⟩

theorem submitTest_race_exactly_once_witness :
    inProgressAnonAttempt.submitted = false ∧
    raceSys0.store = some inProgressAnonAttempt ∧
    raceSys0.writes = 0 ∧
    (∀ p ∈ raceSys0.procs, p.pc = SubPC.start 3) ∧
    (raceSys2.writes ≤ 1 ∧
     (∀ p ∈ raceSys2.procs, ∀ resp, p.pc = SubPC.done resp → isResult resp = true →
        ∃ aF, raceSys2.store = some aF ∧ aF.submitted = true ∧ RespMatches aF resp) ∧
     ((∀ p ∈ raceSys2.procs, ∃ resp, p.pc = SubPC.done resp) →
      (∃ p ∈ raceSys2.procs, authOk p.caller inProgressAnonAttempt.userId = true) →
      raceSys2.writes = 1)) :=
  ⟨rfl, rfl, rfl, by decide,
    submitTest_race_exactly_once scenarioBank inProgressAnonAttempt raceSys0 raceSys2
      (by decide) rfl rfl (by decide)
      (Relation.ReflTransGen.tail
        (Relation.ReflTransGen.single (SysStep.mk raceSys0 ⟨0, by decide⟩))
        (SysStep.mk raceSys1 ⟨0, by decide⟩))⟩

/-! ### Claim C9: the retry loop is bounded

`retries` starts at 3; each failed conditional write consumes one retry and
sleeps `100 * (4 - retries)` ms, i.e. 200ms before attempt 2 and 300ms
before attempt 3 (the code's backoff is this deterministic schedule); after
the third failure the loop falls through to a single re-read. -/

/-- The only backoff schedules the loop can produce. -/
theorem sleeps_shape (l : List Nat) (k : Nat) (h : l = [200, 300].take k) :
    l = [] ∨ l = [200] ∨ l = [200, 300] := by
  subst h
  rcases k with - | - | k
  · exact Or.inl rfl
  · exact Or.inr (Or.inl rfl)
  · exact Or.inr (Or.inr (by simp))

/-- Ghost-state invariant of one `submitTest` invocation, tying the program
counter to the instrumentation counters. -/
def ghostOK (p : SubProc) : Prop :=
  match p.pc with
  | .start r => 1 ≤ r ∧ r ≤ 3 ∧ p.casTries = 3 - r ∧ p.reads = 3 - r ∧ p.finalReads = 0 ∧
      p.sleeps = [200, 300].take (3 - r)
  | .cas r _ _ => 1 ≤ r ∧ r ≤ 3 ∧ p.casTries = 3 - r ∧ p.reads = 4 - r ∧ p.finalReads = 0 ∧
      p.sleeps = [200, 300].take (3 - r)
  | .finalRead => p.casTries = 3 ∧ p.reads = 3 ∧ p.finalReads = 0 ∧ p.sleeps = [200, 300]
  | .done resp => p.casTries ≤ 3 ∧ p.reads ≤ 3 ∧ p.finalReads ≤ 1 ∧
      (p.sleeps = [] ∨ p.sleeps = [200] ∨ p.sleeps = [200, 300]) ∧
      (resp = SubmitResp.exhausted → p.casTries = 3 ∧ p.finalReads = 1)

/-- Loop read on a missing attempt: 404. -/
theorem step_start_notFound (bank : List BankQuestion) (p : SubProc) (r : Nat)
    (hp : p.pc = SubPC.start r) :
    submitTestStep bank p none =
      ({ p with pc := SubPC.done SubmitResp.notFound, reads := p.reads + 1 }, none) := by
  simp [submitTestStep, hp]

/-- Conditional write against a deleted attempt: it fails. -/
theorem step_cas_missing (bank : List BankQuestion) (p : SubProc) (r v : Nat) (comp : Scored)
    (hp : p.pc = SubPC.cas r v comp) :
    submitTestStep bank p none = casFail p r none := by
  simp [submitTestStep, hp]

/-- Post-exhaustion re-read of a deleted attempt: the call fails. -/
theorem step_finalRead_missing (bank : List BankQuestion) (p : SubProc)
    (hp : p.pc = SubPC.finalRead) :
    submitTestStep bank p none =
      ({ p with pc := SubPC.done SubmitResp.exhausted,
                finalReads := p.finalReads + 1 }, none) := by
  simp [submitTestStep, hp]

/-- Ghost transition: a loop read that finishes the call. -/
theorem ghostOK_start_done (p : SubProc) (r : Nat) (resp : SubmitResp)
    (hne : resp ≠ SubmitResp.exhausted) (h1 : 1 ≤ r) (h3 : r ≤ 3)
    (hct : p.casTries = 3 - r) (hrd : p.reads = 3 - r) (hfr : p.finalReads = 0)
    (hsl : p.sleeps = [200, 300].take (3 - r)) :
    ghostOK { p with pc := SubPC.done resp, reads := p.reads + 1 } := by
  show p.casTries ≤ 3 ∧ p.reads + 1 ≤ 3 ∧ p.finalReads ≤ 1 ∧
    (p.sleeps = [] ∨ p.sleeps = [200] ∨ p.sleeps = [200, 300]) ∧
    (resp = SubmitResp.exhausted → p.casTries = 3 ∧ p.finalReads = 1)
  exact ⟨by omega, by omega, by omega, sleeps_shape p.sleeps (3 - r) hsl,
    fun hx => absurd hx hne⟩

/-- Ghost transition: a loop read that moves to the conditional write. -/
theorem ghostOK_start_cas (p : SubProc) (r v : Nat) (comp : Scored) (h1 : 1 ≤ r) (h3 : r ≤ 3)
    (hct : p.casTries = 3 - r) (hrd : p.reads = 3 - r) (hfr : p.finalReads = 0)
    (hsl : p.sleeps = [200, 300].take (3 - r)) :
    ghostOK { p with pc := SubPC.cas r v comp, reads := p.reads + 1
                     computes := p.computes + 1 } := by
  show 1 ≤ r ∧ r ≤ 3 ∧ p.casTries = 3 - r ∧ p.reads + 1 = 4 - r ∧ p.finalReads = 0 ∧
    p.sleeps = [200, 300].take (3 - r)
  exact ⟨h1, h3, hct, by omega, hfr, hsl⟩

/-- Ghost transition: a successful conditional write. -/
theorem ghostOK_cas_success_ghost (p : SubProc) (r : Nat) (resp : SubmitResp)
    (hne : resp ≠ SubmitResp.exhausted) (h1 : 1 ≤ r) (h3 : r ≤ 3)
    (hct : p.casTries = 3 - r) (hrd : p.reads = 4 - r) (hfr : p.finalReads = 0)
    (hsl : p.sleeps = [200, 300].take (3 - r)) :
    ghostOK { p with pc := SubPC.done resp, casTries := p.casTries + 1 } := by
  show p.casTries + 1 ≤ 3 ∧ p.reads ≤ 3 ∧ p.finalReads ≤ 1 ∧
    (p.sleeps = [] ∨ p.sleeps = [200] ∨ p.sleeps = [200, 300]) ∧
    (resp = SubmitResp.exhausted → p.casTries + 1 = 3 ∧ p.finalReads = 1)
  exact ⟨by omega, by omega, by omega, sleeps_shape p.sleeps (3 - r) hsl,
    fun hx => absurd hx hne⟩

/-- Ghost transition: a failed conditional write. -/
theorem ghostOK_casFail (p : SubProc) (r : Nat) (st : Option Attempt) (h1 : 1 ≤ r) (h3 : r ≤ 3)
    (hct : p.casTries = 3 - r) (hrd : p.reads = 4 - r) (hfr : p.finalReads = 0)
    (hsl : p.sleeps = [200, 300].take (3 - r)) :
    ghostOK (casFail p r st).1 := by
  rw [casFail]
  by_cases h0 : 0 < r - 1
  · rw [if_pos h0]
    show 1 ≤ r - 1 ∧ r - 1 ≤ 3 ∧ p.casTries + 1 = 3 - (r - 1) ∧ p.reads = 3 - (r - 1) ∧
      p.finalReads = 0 ∧ p.sleeps ++ [100 * (4 - (r - 1))] = [200, 300].take (3 - (r - 1))
    refine ⟨by omega, by omega, by omega, by omega, hfr, ?_⟩
    have hr : r = 2 ∨ r = 3 := by omega
    rcases hr with hr | hr <;> subst hr <;> rw [hsl] <;> decide
  · rw [if_neg h0]
    show p.casTries + 1 = 3 ∧ p.reads = 3 ∧ p.finalReads = 0 ∧ p.sleeps = [200, 300]
    have hr : r = 1 := by omega
    subst hr
    refine ⟨by omega, by omega, hfr, ?_⟩
    rw [hsl]
    decide

/-- Ghost transition: the single post-exhaustion re-read. -/
theorem ghostOK_finalRead_done (p : SubProc) (resp : SubmitResp)
    (hct : p.casTries = 3) (hrd : p.reads = 3) (hfr : p.finalReads = 0)
    (hsl : p.sleeps = [200, 300]) :
    ghostOK { p with pc := SubPC.done resp, finalReads := p.finalReads + 1 } := by
  show p.casTries ≤ 3 ∧ p.reads ≤ 3 ∧ p.finalReads + 1 ≤ 1 ∧
    (p.sleeps = [] ∨ p.sleeps = [200] ∨ p.sleeps = [200, 300]) ∧
    (resp = SubmitResp.exhausted → p.casTries = 3 ∧ p.finalReads + 1 = 1)
  exact ⟨by omega, by omega, by omega, Or.inr (Or.inr hsl), fun _ => ⟨hct, by omega⟩⟩

/-- One step of the invocation preserves the ghost invariant, whatever the
store contains. -/
theorem ghostOK_step (bank : List BankQuestion) (p : SubProc) (st : Option Attempt)
    (h : ghostOK p) : ghostOK (submitTestStep bank p st).1 := by
  rcases hp : p.pc with r | ⟨r, v, comp⟩ | - | resp
  · rw [ghostOK, hp] at h
    obtain ⟨h1, h3, hct, hrd, hfr, hsl⟩ := h
    cases st with
    | none =>
      rw [step_start_notFound bank p r hp]
      exact ghostOK_start_done p r SubmitResp.notFound (fun hx => SubmitResp.noConfusion hx)
        h1 h3 hct hrd hfr hsl
    | some a =>
      by_cases hauth : authOk p.caller a.userId = true
      · by_cases hsubm : a.submitted = true
        · rw [step_start_already bank p a r hp hauth hsubm]
          exact ghostOK_start_done p r _ (fun hx => SubmitResp.noConfusion hx)
            h1 h3 hct hrd hfr hsl
        · rw [step_start_compute bank p a r hp hauth (Bool.not_eq_true a.submitted ▸ hsubm)]
          exact ghostOK_start_cas p r a.version (computeScored bank a.questions)
            h1 h3 hct hrd hfr hsl
      · rw [step_start_forbidden bank p a r hp (Bool.not_eq_true (authOk p.caller a.userId) ▸ hauth)]
        exact ghostOK_start_done p r _ (fun hx => SubmitResp.noConfusion hx)
          h1 h3 hct hrd hfr hsl
  · rw [ghostOK, hp] at h
    obtain ⟨h1, h3, hct, hrd, hfr, hsl⟩ := h
    cases st with
    | none =>
      rw [step_cas_missing bank p r v comp hp]
      exact ghostOK_casFail p r none h1 h3 hct hrd hfr hsl
    | some a =>
      by_cases hcond : (a.submitted = false && a.version = v) = true
      · have hstep : submitTestStep bank p (some a) =
            ({ p with pc := SubPC.done (SubmitResp.success comp.score comp.correct comp.total
                  comp.results),
                      casTries := p.casTries + 1 }, some (finalize a comp)) := by
          simp only [submitTestStep, hp]
          rw [if_pos hcond]
        rw [hstep]
        exact ghostOK_cas_success_ghost p r _ (fun hx => SubmitResp.noConfusion hx)
          h1 h3 hct hrd hfr hsl
      · have hstep : submitTestStep bank p (some a) = casFail p r (some a) := by
          simp only [submitTestStep, hp]
          rw [if_neg hcond]
        rw [hstep]
        exact ghostOK_casFail p r (some a) h1 h3 hct hrd hfr hsl
  · rw [ghostOK, hp] at h
    obtain ⟨hct, hrd, hfr, hsl⟩ := h
    cases st with
    | none =>
      rw [step_finalRead_missing bank p hp]
      exact ghostOK_finalRead_done p _ hct hrd hfr hsl
    | some a =>
      by_cases hsubm : a.submitted = true
      · rw [step_finalRead_already bank p a hp hsubm]
        exact ghostOK_finalRead_done p _ hct hrd hfr hsl
      · rw [step_finalRead_exhausted bank p a hp (Bool.not_eq_true a.submitted ▸ hsubm)]
        exact ghostOK_finalRead_done p _ hct hrd hfr hsl
  · rw [step_done bank p st resp hp]
    exact h

/-- The ghost invariant holds for every invocation along every interleaved
execution. -/
theorem ghostOK_steps (bank : List BankQuestion) (s0 sF : Sys)
    (h0 : ∀ p ∈ s0.procs, ghostOK p) (hsteps : SysSteps bank s0 sF) :
    ∀ p ∈ sF.procs, ghostOK p := by
  induction hsteps with
  | refl => exact h0
  | tail hs hstep ih =>
    cases hstep with
    | mk i =>
      rename_i s
      intro q hq
      rw [sysNext] at hq
      rcases List.mem_or_eq_of_mem_set hq with hq2 | rfl
      · exact ih q hq2
      · exact ghostOK_step bank (s.procs.get i) s.store (ih _ (s.procs.get_mem i.1 i.2))

/-- Claim C9: along any execution, every `submitTest` invocation performs at
most 3 loop reads and 3 conditional-write attempts, sleeps the deterministic
backoff schedule `100ms × attempt number` (a prefix of `[200, 300]`), and
re-reads at most once after exhaustion — reaching the `exhausted` failure
only after all 3 write attempts and the single re-read; the re-read returns
the stored result as alreadySubmitted when another call's submit has
succeeded, and fails otherwise. -/
theorem submitTest_retry_bounded (bank : List BankQuestion) (s0 sF : Sys)
    (hinit : ∀ p ∈ s0.procs, p = initSub p.caller)
    (hsteps : SysSteps bank s0 sF) :
    (∀ p ∈ sF.procs,
       p.reads ≤ 3 ∧ p.casTries ≤ 3 ∧ p.finalReads ≤ 1 ∧
       (p.sleeps = [] ∨ p.sleeps = [200] ∨ p.sleeps = [200, 300]) ∧
       (p.pc = SubPC.done SubmitResp.exhausted → p.casTries = 3 ∧ p.finalReads = 1)) ∧
    (∀ (p : SubProc) (a : Attempt), p.pc = SubPC.finalRead → a.submitted = true →
       submitTestStep bank p (some a)
         = ({ p with pc := SubPC.done (SubmitResp.already a.score a.correct a.total a.results),
                     finalReads := p.finalReads + 1 }, some a)) ∧
    (∀ (p : SubProc) (a : Attempt), p.pc = SubPC.finalRead → a.submitted = false →
       submitTestStep bank p (some a)
         = ({ p with pc := SubPC.done SubmitResp.exhausted,
                     finalReads := p.finalReads + 1 }, some a)) ∧
    [200, 300] = [100 * 2, 100 * 3] := by
  have h0 : ∀ p ∈ s0.procs, ghostOK p := by
    intro p hp
    rw [hinit p hp]
    rw [ghostOK]
    exact ⟨by omega, by omega, rfl, rfl, rfl, rfl⟩
  have hF := ghostOK_steps bank s0 sF h0 hsteps
  refine ⟨?_, fun p a hp ha => step_finalRead_already bank p a hp ha,
    fun p a hp ha => step_finalRead_exhausted bank p a hp ha, rfl⟩
  intro p hp
  have h := hF p hp
  rcases hq : p.pc with r | ⟨r, v, comp⟩ | - | resp
  · rw [ghostOK, hq] at h
    obtain ⟨h1, h3, hct, hrd, hfr, hsl⟩ := h
    exact ⟨by omega, by omega, by omega, sleeps_shape p.sleeps (3 - r) hsl,
      fun hx => nomatch hx⟩
  · rw [ghostOK, hq] at h
    obtain ⟨h1, h3, hct, hrd, hfr, hsl⟩ := h
    exact ⟨by omega, by omega, by omega, sleeps_shape p.sleeps (3 - r) hsl,
      fun hx => nomatch hx⟩
  · rw [ghostOK, hq] at h
    obtain ⟨hct, hrd, hfr, hsl⟩ := h
    exact ⟨by omega, by omega, by omega, Or.inr (Or.inr hsl),
      fun hx => nomatch hx⟩
  · rw [ghostOK, hq] at h
    obtain ⟨hct, hrd, hfr, hsl, hex⟩ := h
    refine ⟨hrd, hct, hfr, hsl, ?_⟩
    intro hx
    have hre : resp = SubmitResp.exhausted := by injection hx
    exact hex hre

/-- Witness for C9: the initial one-invocation race system. -/
theorem submitTest_retry_bounded_witness :
    (∀ p ∈ raceSys0.procs, p = initSub p.caller) ∧
    (∀ p ∈ raceSys0.procs,
       p.reads ≤ 3 ∧ p.casTries ≤ 3 ∧ p.finalReads ≤ 1 ∧
       (p.sleeps = [] ∨ p.sleeps = [200] ∨ p.sleeps = [200, 300]) ∧
       (p.pc = SubPC.done SubmitResp.exhausted → p.casTries = 3 ∧ p.finalReads = 1)) :=
  ⟨by decide,
    (submitTest_retry_bounded scenarioBank raceSys0 raceSys0 (by decide)
      Relation.ReflTransGen.refl).1⟩

end Examfit
